import Mathlib

/-!
Shallow embedding of the validation-and-cleaning engine of
`src/main.py` (`validar_y_limpiar`), operating over the document model
(paragraphs as ordered lists of styled runs).  Run text is modelled as
its list of characters.  Free-text finding messages are presentation
only in the source and are not modelled; a finding keeps its 1-based
line number and its category string.
-/

namespace Validador

/-- Whitespace as stripped by Python `str.strip` / matched by `\s`
(ASCII part: space, tab, newline, carriage return, vertical tab,
form feed). -/
def isPySpace (c : Char) : Bool :=
  c == ' ' || c == '\t' || c == '\n' || c == '\r' || c.toNat == 11 || c.toNat == 12

/-- Python `str.strip()` on a list of characters. -/
def stripList (l : List Char) : List Char :=
  ((l.dropWhile isPySpace).reverse.dropWhile isPySpace).reverse

/-- Python `str.lower()` restricted to the characters relevant here:
ASCII letters and the Spanish accented uppercase letters. -/
def pyLowerChar (c : Char) : Char :=
  if 'A' ≤ c && c ≤ 'Z' then Char.ofNat (c.toNat + 32)
  else if c == 'Á' then 'á' else if c == 'É' then 'é'
  else if c == 'Í' then 'í' else if c == 'Ó' then 'ó'
  else if c == 'Ú' then 'ú' else if c == 'Ñ' then 'ñ'
  else c

/-- Boolean list-prefix test (Python `str.startswith`). -/
def startsB : List Char → List Char → Bool
  | [], _ => true
  | _ :: _, [] => false
  | a :: as, b :: bs => a == b && startsB as bs

/-- Boolean substring test (Python `sub in s`). -/
def containsB (sub : List Char) : List Char → Bool
  | [] => startsB sub []
  | b :: bs => startsB sub (b :: bs) || containsB sub bs

/-- Python `re.fullmatch(r"\d{1,2}:\d{2}", texto)`: one or two digits,
a colon, two digits, nothing else. -/
def matchTimestamp : List Char → Bool
  | [a, b, c, d] => a.isDigit && b == ':' && c.isDigit && d.isDigit
  | [a, b, c, d, e] => a.isDigit && b.isDigit && c == ':' && d.isDigit && e.isDigit
  | _ => false

/-- Character class `[A-ZÁÉÍÓÚÑ]` of the label regex. -/
def isUpperLabel (c : Char) : Bool :=
  ('A' ≤ c && c ≤ 'Z') || c == 'Á' || c == 'É' || c == 'Í' || c == 'Ó' ||
  c == 'Ú' || c == 'Ñ'

/-- Python `re.match(r"^([A-ZÁÉÍÓÚÑ]+:)", texto)`: the maximal leading
run of label-uppercase letters must be nonempty and be followed
immediately by a colon; the captured group is that run plus the colon. -/
def etiquetaMatch (l : List Char) : Option (List Char) :=
  if (l.takeWhile isUpperLabel).isEmpty then none
  else
    match l.dropWhile isUpperLabel with
    | c :: _ => if c == ':' then some (l.takeWhile isUpperLabel ++ [':']) else none
    | [] => none

/-- `ETIQUETAS_VALIDAS` from the source. -/
def ETIQUETAS_VALIDAS : List (List Char) :=
  ["ENTREVISTADOR:".toList, "ENTREVISTADORA:".toList,
   "ENTREVISTADO:".toList, "ENTREVISTADA:".toList]

/-- Complement of `REGEX_PERMITIDOS = r"[^A-Za-zÁÉÍÓÚáéíóúÑñ0-9\s\.,:\?¿]"`:
a character is allowed iff it is an ASCII or Spanish-accented letter, a
digit, whitespace, or one of `. , : ? ¿`. -/
def permitido (c : Char) : Bool :=
  ('A' ≤ c && c ≤ 'Z') || ('a' ≤ c && c ≤ 'z') || ('0' ≤ c && c ≤ '9') ||
  isPySpace c ||
  c == 'Á' || c == 'É' || c == 'Í' || c == 'Ó' || c == 'Ú' ||
  c == 'á' || c == 'é' || c == 'í' || c == 'ó' || c == 'ú' ||
  c == 'Ñ' || c == 'ñ' ||
  c == '.' || c == ',' || c == ':' || c == '?' || c == '¿'

/-- A styled text run: text content (as its character list), bold flag
(`None`/`False`/`True`), optional font name, optional font size in
points. -/
structure Run where
  text : List Char
  bold : Option Bool
  fontName : Option String
  fontSizePt : Option ℚ
deriving DecidableEq

/-- A paragraph is its ordered list of runs. -/
abbrev Paragraph := List Run

/-- A finding: 1-based paragraph line number and category string
(the free-text message of the source is presentation only). -/
structure Finding where
  linea : Nat
  tipo : String
deriving DecidableEq

/-- The per-character removal histogram (`collections.Counter`),
as an association list. -/
abbrev Hist := List (Char × Nat)

/-- Python truthiness of a `run.bold` value: only `True` is truthy. -/
def boldTruthy (b : Option Bool) : Bool := b == some true

/-- `fuente and fuente.lower() != "arial"`: the font name is set,
nonempty, and not Arial case-insensitively. -/
def fontViol (r : Run) : Bool :=
  match r.fontName with
  | none => false
  | some f => !(f == "") && !((f.toList.map pyLowerChar) == "arial".toList)

/-- `tamano and tamano != 12`: the size is set and neither 0 (falsy)
nor exactly 12 points. -/
def sizeViol (r : Run) : Bool :=
  match r.fontSizePt with
  | none => false
  | some t => decide (t ≠ 0 ∧ t ≠ 12)

/-- `para.text`: concatenation of the run texts, in order. -/
def fullText (p : Paragraph) : List Char :=
  (p.map (fun r => r.text)).flatten

/-- Number of findings of a given category. -/
def countTipo (t : String) (fs : List Finding) : Nat :=
  (fs.filter (fun f => f.tipo == t)).length

/-- The three case-insensitive forbidden-word checks
(`"speaker"`, `"usuario"`, `"xxx"` as substrings of the lowercased
trimmed text), each emitting one "Etiqueta inválida" finding. -/
def forbiddenFindings (i : Nat) (texto : List Char) : List Finding :=
  (if containsB "speaker".toList (texto.map pyLowerChar)
   then [⟨i + 1, "Etiqueta inválida"⟩] else []) ++
  (if containsB "usuario".toList (texto.map pyLowerChar)
   then [⟨i + 1, "Etiqueta inválida"⟩] else []) ++
  (if containsB "xxx".toList (texto.map pyLowerChar)
   then [⟨i + 1, "Etiqueta inválida"⟩] else [])

/-- The label-prefix checks: invalid label, label standing alone, and
the two bold checks for the interviewer labels. -/
def labelFindings (i : Nat) (texto : List Char) (para : Paragraph) : List Finding :=
  match etiquetaMatch texto with
  | none => []
  | some etiqueta =>
    if etiqueta ∈ ETIQUETAS_VALIDAS then
      (if texto == etiqueta then [⟨i + 1, "Formato incorrecto"⟩] else []) ++
      (if etiqueta == "ENTREVISTADOR:".toList || etiqueta == "ENTREVISTADORA:".toList then
        (if para.any (fun r => startsB etiqueta (stripList r.text) && boldTruthy r.bold)
         then [] else [⟨i + 1, "Encabezado sin negrita"⟩]) ++
        (if para.all (fun r => boldTruthy r.bold || (stripList r.text).isEmpty)
         then [] else [⟨i + 1, "Formato en negrita"⟩])
      else [])
    else [⟨i + 1, "Etiqueta inválida"⟩]

/-- The font/size scan over the paragraph's runs: on the first run
violating the font check emit "Fuente incorrecta" and `break`; else on
the first run violating the size check emit "Tamaño incorrecto" and
`break`. -/
def fontSizeFindings (i : Nat) : List Run → List Finding
  | [] => []
  | r :: rs =>
    if fontViol r then [⟨i + 1, "Fuente incorrecta"⟩]
    else if sizeViol r then [⟨i + 1, "Tamaño incorrecto"⟩]
    else fontSizeFindings i rs

/-- `Counter` update by one character. -/
def counterAdd : Hist → Char → Hist
  | [], c => [(c, 1)]
  | (a, n) :: t, c => if a == c then (a, n + 1) :: t else (a, n) :: counterAdd t c

/-- `char_counter.update(encontrados)`. -/
def counterUpdate (h : Hist) (cs : List Char) : Hist :=
  cs.foldl counterAdd h

/-- Sum of all histogram counts. -/
def sumCounter (h : Hist) : Nat :=
  (h.map (fun p => p.2)).sum

/-- Cleaning of one run: if the text is nonempty and
`re.findall(REGEX_PERMITIDOS, run.text)` is nonempty, add the matches
to the counter and histogram and write back the text with the matches
deleted; otherwise leave everything untouched. -/
def limpiarRun (r : Run) (cnt : Nat) (h : Hist) : Run × Nat × Hist :=
  if r.text.isEmpty then (r, cnt, h)
  else if (r.text.filter (fun c => !permitido c)).isEmpty then (r, cnt, h)
  else ({ r with text := r.text.filter permitido },
        cnt + (r.text.filter (fun c => !permitido c)).length,
        counterUpdate h (r.text.filter (fun c => !permitido c)))

/-- Cleaning of all runs of a paragraph, left to right, threading the
counter and histogram. -/
def limpiarRuns : Paragraph → Nat → Hist → Paragraph × Nat × Hist
  | [], cnt, h => ([], cnt, h)
  | r :: rs, cnt, h =>
    ((limpiarRun r cnt h).1 ::
       (limpiarRuns rs (limpiarRun r cnt h).2.1 (limpiarRun r cnt h).2.2).1,
     (limpiarRuns rs (limpiarRun r cnt h).2.1 (limpiarRun r cnt h).2.2).2)

/-- Processing of one paragraph at 0-based index `i`: skip when the
trimmed full text is empty or is a timestamp; otherwise emit the
forbidden-word, label and font/size findings in source order and clean
the runs. -/
def procesarParrafo (i : Nat) (para : Paragraph) (cnt : Nat) (h : Hist) :
    List Finding × Paragraph × Nat × Hist :=
  if (stripList (fullText para)).isEmpty then ([], para, cnt, h)
  else if matchTimestamp (stripList (fullText para)) then ([], para, cnt, h)
  else
    (forbiddenFindings i (stripList (fullText para)) ++
       labelFindings i (stripList (fullText para)) para ++
       fontSizeFindings i para,
     limpiarRuns para cnt h)

/-- Processing of the paragraph list from index `i` on, accumulating
findings in encounter order and threading the cleaning state. -/
def procesarDoc (i : Nat) : List Paragraph → Nat → Hist →
    List Finding × List Paragraph × Nat × Hist
  | [], cnt, h => ([], [], cnt, h)
  | p :: ps, cnt, h =>
    ((procesarParrafo i p cnt h).1 ++
       (procesarDoc (i + 1) ps (procesarParrafo i p cnt h).2.2.1
         (procesarParrafo i p cnt h).2.2.2).1,
     (procesarParrafo i p cnt h).2.1 ::
       (procesarDoc (i + 1) ps (procesarParrafo i p cnt h).2.2.1
         (procesarParrafo i p cnt h).2.2.2).2.1,
     (procesarDoc (i + 1) ps (procesarParrafo i p cnt h).2.2.1
       (procesarParrafo i p cnt h).2.2.2).2.2)

/-- The engine `validar_y_limpiar`: one pass over the document's
paragraphs starting from empty accumulators, returning the findings,
the mutated paragraphs, the total removed-character count and the
removal histogram. -/
def validar_y_limpiar (doc : List Paragraph) :
    List Finding × List Paragraph × Nat × Hist :=
  procesarDoc 0 doc 0 []

lemma mem_ite_singleton {c : Prop} [Decidable c] {f g : Finding}
    (h : f ∈ (if c then [g] else [])) : f = g := by
  split at h <;> simp_all

lemma mem_ite_singleton_neg {c : Prop} [Decidable c] {f g : Finding}
    (h : f ∈ (if c then [] else [g])) : f = g := by
  split at h <;> simp_all

lemma countTipo_append (t : String) (a b : List Finding) :
    countTipo t (a ++ b) = countTipo t a + countTipo t b := by
  simp [countTipo, List.filter_append]

lemma countTipo_eq_zero (t : String) (fs : List Finding)
    (h : ∀ f ∈ fs, f.tipo ≠ t) : countTipo t fs = 0 := by
  simp only [countTipo, List.length_eq_zero, List.filter_eq_nil_iff]
  intro f hf
  simp only [beq_iff_eq]
  exact h f hf

lemma countTipo_le (t : String) (fs : List Finding) : countTipo t fs ≤ fs.length :=
  List.length_filter_le _ _

lemma forbidden_tipo (i : Nat) (texto : List Char) :
    ∀ f ∈ forbiddenFindings i texto, f.tipo = "Etiqueta inválida" := by
  intro f hf
  unfold forbiddenFindings at hf
  simp only [List.mem_append] at hf
  rcases hf with (hf | hf) | hf <;> rw [mem_ite_singleton hf]

lemma label_tipo (i : Nat) (texto : List Char) (para : Paragraph) :
    ∀ f ∈ labelFindings i texto para,
      f.tipo = "Etiqueta inválida" ∨ f.tipo = "Formato incorrecto" ∨
      f.tipo = "Encabezado sin negrita" ∨ f.tipo = "Formato en negrita" := by
  intro f hf
  unfold labelFindings at hf
  split at hf
  · simp at hf
  · split at hf
    · simp only [List.mem_append] at hf
      rcases hf with hf | hf
      · rw [mem_ite_singleton hf]; tauto
      · split at hf
        · simp only [List.mem_append] at hf
          rcases hf with hf | hf <;> rw [mem_ite_singleton_neg hf] <;> tauto
        · simp at hf
    · simp only [List.mem_singleton] at hf
      rw [hf]; tauto

lemma fontSize_tipo (i : Nat) (runs : List Run) :
    ∀ f ∈ fontSizeFindings i runs,
      f.tipo = "Fuente incorrecta" ∨ f.tipo = "Tamaño incorrecto" := by
  induction runs with
  | nil => intro f hf; simp [fontSizeFindings] at hf
  | cons r rs ih =>
    intro f hf
    unfold fontSizeFindings at hf
    split at hf
    · simp only [List.mem_singleton] at hf; rw [hf]; left; rfl
    · split at hf
      · simp only [List.mem_singleton] at hf; rw [hf]; right; rfl
      · exact ih f hf

lemma fontSize_len (i : Nat) (runs : List Run) :
    (fontSizeFindings i runs).length ≤ 1 := by
  induction runs with
  | nil => simp [fontSizeFindings]
  | cons r rs ih =>
    unfold fontSizeFindings
    split
    · simp
    · split
      · simp
      · exact ih

lemma limpiarRun_text (r : Run) (cnt : Nat) (h : Hist) :
    (limpiarRun r cnt h).1.text = r.text.filter permitido := by
  unfold limpiarRun
  split
  · rename_i hemp
    simp only [List.isEmpty_eq_true] at hemp
    simp [hemp]
  · split
    · rename_i henc
      simp only [List.isEmpty_eq_true, List.filter_eq_nil_iff] at henc
      have hall : ∀ c ∈ r.text, permitido c = true := by
        intro c hc
        have := henc c hc
        simpa using this
      simp [List.filter_eq_self.mpr hall]
    · rfl

lemma limpiarRun_noop (r : Run) (cnt : Nat) (h : Hist)
    (hno : r.text.filter (fun c => !permitido c) = []) :
    limpiarRun r cnt h = (r, cnt, h) := by
  unfold limpiarRun
  split
  · rfl
  · simp [hno]

lemma limpiarRuns_map_text (para : Paragraph) (cnt : Nat) (h : Hist) :
    (limpiarRuns para cnt h).1.map (fun r => r.text) =
      para.map (fun r => r.text.filter permitido) := by
  induction para generalizing cnt h with
  | nil => simp [limpiarRuns]
  | cons r rs ih =>
    simp only [limpiarRuns, List.map_cons]
    rw [limpiarRun_text, ih]

/-- C3: a paragraph whose trimmed full text exactly matches the
timestamp pattern `\d{1,2}:\d{2}` produces no findings and no cleaning:
the whole paragraph step leaves runs, counter and histogram untouched. -/
theorem c3_timestamp_skip (i : Nat) (para : Paragraph) (cnt : Nat) (h : Hist)
    (ht : matchTimestamp (stripList (fullText para)) = true) :
    procesarParrafo i para cnt h = ([], para, cnt, h) := by
  have hne : (stripList (fullText para)).isEmpty = false := by
    cases hl : stripList (fullText para) with
    | nil => rw [hl] at ht; simp [matchTimestamp] at ht
    | cons a l => rfl
  simp [procesarParrafo, hne, ht]

/-- Witness for C3 at the concrete timestamp paragraph "12:34". -/
theorem c3_witness :
    procesarParrafo 0 [⟨"12:34".toList, none, none, none⟩] 0 [] =
      ([], [⟨"12:34".toList, none, none, none⟩], 0, []) :=
  c3_timestamp_skip 0 [⟨"12:34".toList, none, none, none⟩] 0 [] (by decide)

/-- C4: a cleaned run text contains only allowed characters, a second
scan finds zero disallowed characters, and cleaning an already-cleaned
run is the identity on run, counter and histogram. -/
theorem c4_clean_allowed_idempotent (r : Run) (cnt cnt₂ : Nat) (h h₂ : Hist) :
    (∀ c ∈ (limpiarRun r cnt h).1.text, permitido c = true) ∧
    (limpiarRun r cnt h).1.text.filter (fun c => !permitido c) = [] ∧
    limpiarRun ((limpiarRun r cnt h).1) cnt₂ h₂ = ((limpiarRun r cnt h).1, cnt₂, h₂) := by
  have hall : ∀ c ∈ (limpiarRun r cnt h).1.text, permitido c = true := by
    rw [limpiarRun_text]
    intro c hc
    exact (List.mem_filter.mp hc).2
  have hnil : (limpiarRun r cnt h).1.text.filter (fun c => !permitido c) = [] := by
    rw [List.filter_eq_nil_iff]
    intro c hc
    simp [hall c hc]
  exact ⟨hall, hnil, limpiarRun_noop _ _ _ hnil⟩

/-- Witness for C4 at the concrete run text "café#1". -/
theorem c4_witness :
    (∀ c ∈ (limpiarRun ⟨"café#1".toList, none, none, none⟩ 0 []).1.text,
      permitido c = true) ∧
    (limpiarRun ⟨"café#1".toList, none, none, none⟩ 0 []).1.text.filter
      (fun c => !permitido c) = [] ∧
    limpiarRun ((limpiarRun ⟨"café#1".toList, none, none, none⟩ 0 []).1) 0 [] =
      ((limpiarRun ⟨"café#1".toList, none, none, none⟩ 0 []).1, 0, []) :=
  c4_clean_allowed_idempotent ⟨"café#1".toList, none, none, none⟩ 0 0 [] []

/-- C5: the paragraph full text is the concatenation of its run texts
(before cleaning, by construction); after cleaning each run text is the
allowed-character filter of the original, concatenation of the cleaned
runs equals the cleaned full text, and each cleaned run text is an
order-preserving subsequence (sublist) of the original. -/
theorem c5_concat_invariant (para : Paragraph) (cnt : Nat) (h : Hist) :
    fullText para = (para.map (fun r => r.text)).flatten ∧
    (limpiarRuns para cnt h).1.map (fun r => r.text) =
      para.map (fun r => r.text.filter permitido) ∧
    fullText ((limpiarRuns para cnt h).1) = (fullText para).filter permitido ∧
    ∀ r ∈ para, List.Sublist (r.text.filter permitido) r.text := by
  refine ⟨rfl, limpiarRuns_map_text para cnt h, ?_, ?_⟩
  · unfold fullText
    rw [limpiarRuns_map_text, List.filter_flatten, List.map_map]
    rfl
  · intro r _
    exact List.filter_sublist _

/-- Witness for C5 at a concrete two-run paragraph. -/
theorem c5_witness :
    fullText [⟨"a#b".toList, none, none, none⟩, ⟨"c€".toList, none, none, none⟩] =
      (([⟨"a#b".toList, none, none, none⟩,
        ⟨"c€".toList, none, none, none⟩] : Paragraph).map
        (fun r => r.text)).flatten ∧
    (limpiarRuns [⟨"a#b".toList, none, none, none⟩,
        ⟨"c€".toList, none, none, none⟩] 0 []).1.map (fun r => r.text) =
      ([⟨"a#b".toList, none, none, none⟩,
        ⟨"c€".toList, none, none, none⟩] : Paragraph).map
        (fun r => r.text.filter permitido) ∧
    fullText ((limpiarRuns [⟨"a#b".toList, none, none, none⟩,
        ⟨"c€".toList, none, none, none⟩] 0 []).1) =
      (fullText [⟨"a#b".toList, none, none, none⟩,
        ⟨"c€".toList, none, none, none⟩]).filter permitido ∧
    ∀ r ∈ ([⟨"a#b".toList, none, none, none⟩,
        ⟨"c€".toList, none, none, none⟩] : Paragraph),
      List.Sublist (r.text.filter permitido) r.text :=
  c5_concat_invariant [⟨"a#b".toList, none, none, none⟩,
    ⟨"c€".toList, none, none, none⟩] 0 []

lemma procesarParrafo_findings (i : Nat) (para : Paragraph) (cnt : Nat) (h : Hist) :
    (procesarParrafo i para cnt h).1 = [] ∨
    (procesarParrafo i para cnt h).1 =
      forbiddenFindings i (stripList (fullText para)) ++
        labelFindings i (stripList (fullText para)) para ++
        fontSizeFindings i para := by
  unfold procesarParrafo
  split
  · left; rfl
  · split
    · left; rfl
    · right; rfl

lemma count_scan_le (i : Nat) (para : Paragraph) (cnt : Nat) (h : Hist) (t : String)
    (h1 : t ≠ "Etiqueta inválida") (h2 : t ≠ "Formato incorrecto")
    (h3 : t ≠ "Encabezado sin negrita") (h4 : t ≠ "Formato en negrita") :
    countTipo t (procesarParrafo i para cnt h).1 ≤ 1 := by
  rcases procesarParrafo_findings i para cnt h with hp | hp <;> rw [hp]
  · simp [countTipo]
  · rw [countTipo_append, countTipo_append]
    have z1 : countTipo t (forbiddenFindings i (stripList (fullText para))) = 0 :=
      countTipo_eq_zero _ _ (fun f hf => by
        rw [forbidden_tipo i _ f hf]; exact Ne.symm h1)
    have z2 : countTipo t (labelFindings i (stripList (fullText para)) para) = 0 :=
      countTipo_eq_zero _ _ (fun f hf => by
        rcases label_tipo i _ para f hf with e | e | e | e <;> rw [e] <;>
          first
            | exact Ne.symm h1
            | exact Ne.symm h2
            | exact Ne.symm h3
            | exact Ne.symm h4)
    have z3 : countTipo t (fontSizeFindings i para) ≤ 1 :=
      le_trans (countTipo_le _ _) (fontSize_len i para)
    omega

lemma fontSize_scan_stops (i : Nat) (r : Run)
    (hr : fontViol r = true ∨ sizeViol r = true) :
    ∀ pre post post', (∀ x ∈ pre, fontViol x = false ∧ sizeViol x = false) →
      fontSizeFindings i (pre ++ r :: post) = fontSizeFindings i (pre ++ r :: post') := by
  intro pre
  induction pre with
  | nil =>
    intro post post' _
    simp only [List.nil_append]
    unfold fontSizeFindings
    rcases hr with hr | hr
    · simp [hr]
    · cases hfv : fontViol r
      · simp [hfv, hr]
      · simp [hfv]
  | cons x xs ih =>
    intro post post' hpre
    have hx := hpre x (List.mem_cons_self x xs)
    simp only [List.cons_append]
    unfold fontSizeFindings
    simp only [hx.1, hx.2, if_false, Bool.false_eq_true]
    exact ih post post' (fun y hy => hpre y (List.mem_cons_of_mem x hy))

/-- C2: the font/size scan stops at the first run triggering either
violation; per paragraph at most one "Fuente incorrecta" and at most
one "Tamaño incorrecto" finding are produced, and runs after the first
violating run are never examined: the scan result does not depend on
them. -/
theorem c2_scan_early_exit (i : Nat) (para : Paragraph) (cnt : Nat) (h : Hist) :
    countTipo "Fuente incorrecta" (procesarParrafo i para cnt h).1 ≤ 1 ∧
    countTipo "Tamaño incorrecto" (procesarParrafo i para cnt h).1 ≤ 1 ∧
    ∀ pre r post post',
      (∀ x ∈ pre, fontViol x = false ∧ sizeViol x = false) →
      (fontViol r = true ∨ sizeViol r = true) →
      fontSizeFindings i (pre ++ r :: post) = fontSizeFindings i (pre ++ r :: post') :=
  ⟨count_scan_le i para cnt h _ (by decide) (by decide) (by decide) (by decide),
   count_scan_le i para cnt h _ (by decide) (by decide) (by decide) (by decide),
   fun pre r post post' hpre hr => fontSize_scan_stops i r hr pre post post' hpre⟩

/-- Witness for C2: concrete paragraph with a Calibri run followed by a
run that is never examined. -/
theorem c2_witness :
    countTipo "Fuente incorrecta"
      (procesarParrafo 0 [⟨"Hola".toList, none, some "Calibri", some 10⟩,
        ⟨"x".toList, none, some "Courier", some 8⟩] 0 []).1 ≤ 1 ∧
    countTipo "Tamaño incorrecto"
      (procesarParrafo 0 [⟨"Hola".toList, none, some "Calibri", some 10⟩,
        ⟨"x".toList, none, some "Courier", some 8⟩] 0 []).1 ≤ 1 ∧
    fontSizeFindings 0 ([] ++ ⟨"Hola".toList, none, some "Calibri", some 10⟩ ::
        [⟨"x".toList, none, some "Courier", some 8⟩]) =
      fontSizeFindings 0 ([] ++ [⟨"Hola".toList, none, some "Calibri", some 10⟩]) :=
  ⟨(c2_scan_early_exit 0 _ 0 []).1, (c2_scan_early_exit 0 _ 0 []).2.1,
   (c2_scan_early_exit 0 [⟨"Hola".toList, none, some "Calibri", some 10⟩,
      ⟨"x".toList, none, some "Courier", some 8⟩] 0 []).2.2
     [] ⟨"Hola".toList, none, some "Calibri", some 10⟩
     [⟨"x".toList, none, some "Courier", some 8⟩] []
     (fun x hx => absurd hx (List.not_mem_nil x)) (Or.inl (by decide))⟩

lemma sumCounter_counterAdd (h : Hist) (c : Char) :
    sumCounter (counterAdd h c) = sumCounter h + 1 := by
  induction h with
  | nil => simp [counterAdd, sumCounter]
  | cons p t ih =>
    obtain ⟨a, n⟩ := p
    unfold counterAdd
    split
    · simp [sumCounter]
      omega
    · simp [sumCounter] at ih ⊢
      omega

lemma sumCounter_counterUpdate (h : Hist) (cs : List Char) :
    sumCounter (counterUpdate h cs) = sumCounter h + cs.length := by
  induction cs generalizing h with
  | nil => simp [counterUpdate]
  | cons c cs ih =>
    have hstep : counterUpdate h (c :: cs) = counterUpdate (counterAdd h c) cs := rfl
    rw [hstep, ih, sumCounter_counterAdd, List.length_cons]
    omega

lemma limpiarRun_delta (r : Run) (cnt : Nat) (h : Hist) :
    (limpiarRun r cnt h).2.1 + sumCounter h =
      cnt + sumCounter (limpiarRun r cnt h).2.2 := by
  unfold limpiarRun
  split
  · simp
  · split
    · simp
    · dsimp only
      rw [sumCounter_counterUpdate]
      omega

lemma limpiarRuns_delta (para : Paragraph) (cnt : Nat) (h : Hist) :
    (limpiarRuns para cnt h).2.1 + sumCounter h =
      cnt + sumCounter (limpiarRuns para cnt h).2.2 := by
  induction para generalizing cnt h with
  | nil => simp [limpiarRuns]
  | cons r rs ih =>
    simp only [limpiarRuns]
    have h1 := limpiarRun_delta r cnt h
    have h2 := ih (limpiarRun r cnt h).2.1 (limpiarRun r cnt h).2.2
    omega

lemma procesarParrafo_delta (i : Nat) (para : Paragraph) (cnt : Nat) (h : Hist) :
    (procesarParrafo i para cnt h).2.2.1 + sumCounter h =
      cnt + sumCounter (procesarParrafo i para cnt h).2.2.2 := by
  unfold procesarParrafo
  split
  · simp
  · split
    · simp
    · simpa using limpiarRuns_delta para cnt h

lemma procesarDoc_delta (doc : List Paragraph) (i cnt : Nat) (h : Hist) :
    (procesarDoc i doc cnt h).2.2.1 + sumCounter h =
      cnt + sumCounter (procesarDoc i doc cnt h).2.2.2 := by
  induction doc generalizing i cnt h with
  | nil => simp [procesarDoc]
  | cons p ps ih =>
    simp only [procesarDoc]
    have h1 := procesarParrafo_delta i p cnt h
    have h2 := ih (i + 1) (procesarParrafo i p cnt h).2.2.1
      (procesarParrafo i p cnt h).2.2.2
    omega

/-- C10: the removal total always equals the sum of the histogram
counts: it holds of the final outputs, it is preserved through the pass
from any state where it holds, and each single run's cleaning adds the
same quantity to the counter as to the histogram. -/
theorem c10_counter_histogram_sum (doc : List Paragraph) (i cnt : Nat) (h : Hist)
    (r : Run) (hinv : sumCounter h = cnt) :
    sumCounter (validar_y_limpiar doc).2.2.2 = (validar_y_limpiar doc).2.2.1 ∧
    sumCounter (procesarDoc i doc cnt h).2.2.2 = (procesarDoc i doc cnt h).2.2.1 ∧
    cnt + sumCounter ((limpiarRun r cnt h).2.2) =
      (limpiarRun r cnt h).2.1 + sumCounter h := by
  refine ⟨?_, ?_, ?_⟩
  · have hd := procesarDoc_delta doc 0 0 []
    have h0 : sumCounter ([] : Hist) = 0 := rfl
    simp only [validar_y_limpiar]
    omega
  · have hd := procesarDoc_delta doc i cnt h
    omega
  · have hd := limpiarRun_delta r cnt h
    omega

/-- Witness for C10 at a concrete one-paragraph document and run. -/
theorem c10_witness :
    sumCounter (validar_y_limpiar [[⟨"a#".toList, none, none, none⟩]]).2.2.2 =
      (validar_y_limpiar [[⟨"a#".toList, none, none, none⟩]]).2.2.1 ∧
    sumCounter (procesarDoc 0 [[⟨"a#".toList, none, none, none⟩]] 0 []).2.2.2 =
      (procesarDoc 0 [[⟨"a#".toList, none, none, none⟩]] 0 []).2.2.1 ∧
    (0 : Nat) + sumCounter ((limpiarRun ⟨"b$".toList, none, none, none⟩ 0 []).2.2) =
      (limpiarRun ⟨"b$".toList, none, none, none⟩ 0 []).2.1 + sumCounter [] :=
  c10_counter_histogram_sum [[⟨"a#".toList, none, none, none⟩]] 0 0 []
    ⟨"b$".toList, none, none, none⟩ (by decide)

lemma countTipo_forbidden_ne (t : String) (i : Nat) (texto : List Char)
    (h1 : t ≠ "Etiqueta inválida") : countTipo t (forbiddenFindings i texto) = 0 :=
  countTipo_eq_zero _ _ (fun f hf => by
    rw [forbidden_tipo i texto f hf]; exact Ne.symm h1)

lemma countTipo_label_ne (t : String) (i : Nat) (texto : List Char) (para : Paragraph)
    (h1 : t ≠ "Etiqueta inválida") (h2 : t ≠ "Formato incorrecto")
    (h3 : t ≠ "Encabezado sin negrita") (h4 : t ≠ "Formato en negrita") :
    countTipo t (labelFindings i texto para) = 0 :=
  countTipo_eq_zero _ _ (fun f hf => by
    rcases label_tipo i texto para f hf with e | e | e | e <;> rw [e] <;>
      first
        | exact Ne.symm h1
        | exact Ne.symm h2
        | exact Ne.symm h3
        | exact Ne.symm h4)

lemma countTipo_fontSize_ne (t : String) (i : Nat) (runs : List Run)
    (h1 : t ≠ "Fuente incorrecta") (h2 : t ≠ "Tamaño incorrecto") :
    countTipo t (fontSizeFindings i runs) = 0 :=
  countTipo_eq_zero _ _ (fun f hf => by
    rcases fontSize_tipo i runs f hf with e | e <;> rw [e] <;>
      first
        | exact Ne.symm h1
        | exact Ne.symm h2)

lemma procesarParrafo_findings_eq (i : Nat) (para : Paragraph) (cnt : Nat) (h : Hist)
    (hne : (stripList (fullText para)).isEmpty = false)
    (hts : matchTimestamp (stripList (fullText para)) = false) :
    (procesarParrafo i para cnt h).1 =
      forbiddenFindings i (stripList (fullText para)) ++
        labelFindings i (stripList (fullText para)) para ++
        fontSizeFindings i para := by
  unfold procesarParrafo
  simp [hne, hts]

/-- C1 counterexample: for the paragraph whose single (hence first) run
has font "Calibri" and size 10pt, the engine emits one "Fuente
incorrecta" finding but zero "Tamaño incorrecto" findings, because the
font violation breaks the scan before the size check runs; the claim
demands exactly one of each. -/
theorem c1_counterexample :
    countTipo "Fuente incorrecta"
      (procesarParrafo 0 [⟨"Hola".toList, none, some "Calibri", some 10⟩] 0 []).1 = 1 ∧
    countTipo "Tamaño incorrecto"
      (procesarParrafo 0 [⟨"Hola".toList, none, some "Calibri", some 10⟩] 0 []).1 = 0 :=
  ⟨rfl, rfl⟩

/-- C1 (amended): for every scanned paragraph (nonempty trimmed text,
not a timestamp) whose first run has font name "Calibri" and font size
10 points, the engine emits exactly one "Fuente incorrecta" finding and
no "Tamaño incorrecto" finding: the font violation on the first run
ends the scan before the size check is reached. -/
theorem c1_font_calibri10 (i cnt : Nat) (h : Hist) (r : Run) (rest : List Run)
    (hfont : r.fontName = some "Calibri") (_hsize : r.fontSizePt = some 10)
    (hne : (stripList (fullText (r :: rest))).isEmpty = false)
    (hts : matchTimestamp (stripList (fullText (r :: rest))) = false) :
    countTipo "Fuente incorrecta" (procesarParrafo i (r :: rest) cnt h).1 = 1 ∧
    countTipo "Tamaño incorrecto" (procesarParrafo i (r :: rest) cnt h).1 = 0 := by
  have hv : fontViol r = true := by
    unfold fontViol
    rw [hfont]
    decide
  have hfs : fontSizeFindings i (r :: rest) = [⟨i + 1, "Fuente incorrecta"⟩] := by
    unfold fontSizeFindings
    simp [hv]
  rw [procesarParrafo_findings_eq i (r :: rest) cnt h hne hts, hfs]
  have zf1 : countTipo "Fuente incorrecta"
      (forbiddenFindings i (stripList (fullText (r :: rest)))) = 0 :=
    countTipo_forbidden_ne _ _ _ (by decide)
  have zf2 : countTipo "Fuente incorrecta"
      (labelFindings i (stripList (fullText (r :: rest))) (r :: rest)) = 0 :=
    countTipo_label_ne _ _ _ _ (by decide) (by decide) (by decide) (by decide)
  have zt1 : countTipo "Tamaño incorrecto"
      (forbiddenFindings i (stripList (fullText (r :: rest)))) = 0 :=
    countTipo_forbidden_ne _ _ _ (by decide)
  have zt2 : countTipo "Tamaño incorrecto"
      (labelFindings i (stripList (fullText (r :: rest))) (r :: rest)) = 0 :=
    countTipo_label_ne _ _ _ _ (by decide) (by decide) (by decide) (by decide)
  constructor
  · rw [countTipo_append, countTipo_append, zf1, zf2]
    simp [countTipo]
  · rw [countTipo_append, countTipo_append, zt1, zt2]
    simp [countTipo]

/-- Witness for the amended C1 at the concrete Calibri/10pt run. -/
theorem c1_witness :
    countTipo "Fuente incorrecta"
      (procesarParrafo 0 (⟨"Hola".toList, none, some "Calibri", some 10⟩ ::
        [⟨"x".toList, none, none, none⟩]) 0 []).1 = 1 ∧
    countTipo "Tamaño incorrecto"
      (procesarParrafo 0 (⟨"Hola".toList, none, some "Calibri", some 10⟩ ::
        [⟨"x".toList, none, none, none⟩]) 0 []).1 = 0 :=
  c1_font_calibri10 0 0 [] ⟨"Hola".toList, none, some "Calibri", some 10⟩
    [⟨"x".toList, none, none, none⟩] rfl rfl (by decide) (by decide)

/-- C6: a paragraph whose trimmed full text is exactly
"ENTREVISTADO:" (a valid label standing alone) yields exactly one
"Formato incorrecto" finding. -/
theorem c6_label_alone (i cnt : Nat) (h : Hist) (para : Paragraph)
    (htexto : stripList (fullText para) = "ENTREVISTADO:".toList) :
    countTipo "Formato incorrecto" (procesarParrafo i para cnt h).1 = 1 := by
  have hne : (stripList (fullText para)).isEmpty = false := by
    rw [htexto]; rfl
  have hts : matchTimestamp (stripList (fullText para)) = false := by
    rw [htexto]; rfl
  rw [procesarParrafo_findings_eq i para cnt h hne hts, countTipo_append,
    countTipo_append, htexto]
  have hm : etiquetaMatch ("ENTREVISTADO:".toList) =
      some ("ENTREVISTADO:".toList) := by decide
  have hl : labelFindings i ("ENTREVISTADO:".toList) para =
      [⟨i + 1, "Formato incorrecto"⟩] := by
    unfold labelFindings
    split
    · simp_all
    · rename_i etiqueta heq
      have he : etiqueta = "ENTREVISTADO:".toList := by
        rw [hm] at heq
        exact (Option.some.injEq _ _ ▸ heq).symm
      subst he
      rw [if_pos (by decide), if_pos (by decide), if_neg (by decide)]
      simp
  have z1 : countTipo "Formato incorrecto"
      (forbiddenFindings i ("ENTREVISTADO:".toList)) = 0 :=
    countTipo_forbidden_ne _ _ _ (by decide)
  have z3 : countTipo "Formato incorrecto" (fontSizeFindings i para) = 0 :=
    countTipo_fontSize_ne _ _ _ (by decide) (by decide)
  rw [hl, z1, z3]
  simp [countTipo]

/-- Witness for C6 at the concrete paragraph "ENTREVISTADO:". -/
theorem c6_witness :
    countTipo "Formato incorrecto"
      (procesarParrafo 0 [⟨"ENTREVISTADO:".toList, none, none, none⟩] 0 []).1 = 1 :=
  c6_label_alone 0 0 [] [⟨"ENTREVISTADO:".toList, none, none, none⟩] (by decide)

lemma matchTimestamp_long (l : List Char) (h : 5 < l.length) :
    matchTimestamp l = false := by
  rcases l with _ | ⟨a, _ | ⟨b, _ | ⟨c, _ | ⟨d, _ | ⟨e, _ | ⟨f, t⟩⟩⟩⟩⟩⟩ <;>
    first
      | rfl
      | simp at h

lemma stripList_eq_nil_iff (l : List Char) :
    stripList l = [] ↔ ∀ c ∈ l, isPySpace c = true := by
  unfold stripList
  rw [List.reverse_eq_nil_iff, List.dropWhile_eq_nil_iff]
  constructor
  · intro hrev c hc
    have hc' : c ∈ l.takeWhile isPySpace ++ l.dropWhile isPySpace := by
      rw [List.takeWhile_append_dropWhile]
      exact hc
    rcases List.mem_append.mp hc' with h1 | h1
    · exact List.mem_takeWhile_imp h1
    · exact hrev c (List.mem_reverse.mpr h1)
  · intro hall c hc
    exact hall c ((List.dropWhile_sublist isPySpace).mem (List.mem_reverse.mp hc))

lemma exists_nonspace_run (para : Paragraph)
    (hne : stripList (fullText para) ≠ []) :
    ∃ r ∈ para, stripList r.text ≠ [] := by
  by_contra hno
  push_neg at hno
  apply hne
  rw [stripList_eq_nil_iff]
  intro c hc
  unfold fullText at hc
  rcases List.mem_flatten.mp hc with ⟨l, hl, hcl⟩
  rcases List.mem_map.mp hl with ⟨r, hr, hrl⟩
  have := (stripList_eq_nil_iff r.text).mp (hno r hr)
  exact this c (hrl ▸ hcl)

lemma etiquetaMatch_label (lbl rest : List Char)
    (h1 : ∀ c ∈ lbl, isUpperLabel c = true) (h2 : lbl ≠ []) :
    etiquetaMatch (lbl ++ ':' :: rest) = some (lbl ++ [':']) := by
  unfold etiquetaMatch
  rw [List.takeWhile_append_of_pos h1, List.dropWhile_append_of_pos h1,
    List.takeWhile_cons_of_neg (by decide), List.dropWhile_cons_of_neg (by decide),
    List.append_nil]
  rw [if_neg (by simp [List.isEmpty_eq_true, h2])]
  simp

lemma interviewer_core (i cnt : Nat) (h : Hist) (para : Paragraph)
    (lbl resto : List Char)
    (hlbl : lbl = "ENTREVISTADOR".toList ∨ lbl = "ENTREVISTADORA".toList)
    (htexto : stripList (fullText para) = lbl ++ ':' :: resto)
    (hresto : resto ≠ [])
    (hbold : ∀ r ∈ para, boldTruthy r.bold = false) :
    countTipo "Encabezado sin negrita" (procesarParrafo i para cnt h).1 = 1 ∧
    countTipo "Formato en negrita" (procesarParrafo i para cnt h).1 = 1 := by
  have hup : ∀ c ∈ lbl, isUpperLabel c = true := by
    rcases hlbl with h1 | h1 <;> subst h1 <;> decide
  have hlne : lbl ≠ [] := by
    rcases hlbl with h1 | h1 <;> subst h1 <;> decide
  have hm : etiquetaMatch (stripList (fullText para)) = some (lbl ++ [':']) := by
    rw [htexto]
    exact etiquetaMatch_label lbl resto hup hlne
  have hvalid : (lbl ++ [':']) ∈ ETIQUETAS_VALIDAS := by
    rcases hlbl with h1 | h1 <;> subst h1 <;> decide
  have hinterv : ((lbl ++ [':']) == "ENTREVISTADOR:".toList ||
      (lbl ++ [':']) == "ENTREVISTADORA:".toList) = true := by
    rcases hlbl with h1 | h1 <;> subst h1 <;> decide
  have hne : (stripList (fullText para)).isEmpty = false := by
    rw [htexto]
    rcases hlbl with h1 | h1 <;> subst h1 <;> rfl
  have hts : matchTimestamp (stripList (fullText para)) = false := by
    rw [htexto]
    apply matchTimestamp_long
    rcases hlbl with h1 | h1 <;> subst h1 <;> simp
  have hlf : labelFindings i (stripList (fullText para)) para =
      [⟨i + 1, "Encabezado sin negrita"⟩] ++ [⟨i + 1, "Formato en negrita"⟩] := by
    unfold labelFindings
    split
    · simp_all
    · rename_i etiqueta heq
      rw [hm] at heq
      injection heq with he
      subst he
      rw [if_pos hvalid]
      rw [if_neg (by
        rw [htexto]
        simp only [beq_iff_eq, List.append_cancel_left_eq]
        simp [hresto])]
      rw [if_pos hinterv]
      have hany : (para.any fun r =>
          startsB (lbl ++ [':']) (stripList r.text) && boldTruthy r.bold) = false := by
        rw [List.any_eq_false]
        intro r hr
        simp [hbold r hr]
      rw [if_neg (by simp [hany])]
      obtain ⟨r0, hr0, hr0ne⟩ := exists_nonspace_run para (by
        rw [htexto]; simp)
      have hall : (para.all fun r =>
          boldTruthy r.bold || (stripList r.text).isEmpty) = false := by
        rw [List.all_eq_false]
        exact ⟨r0, hr0, by simp [hbold r0 hr0, List.isEmpty_eq_true, hr0ne]⟩
      rw [if_neg (by simp [hall])]
      simp
  rw [procesarParrafo_findings_eq i para cnt h hne hts, hlf]
  have ze1 : countTipo "Encabezado sin negrita"
      (forbiddenFindings i (stripList (fullText para))) = 0 :=
    countTipo_forbidden_ne _ _ _ (by decide)
  have ze3 : countTipo "Encabezado sin negrita" (fontSizeFindings i para) = 0 :=
    countTipo_fontSize_ne _ _ _ (by decide) (by decide)
  have zb1 : countTipo "Formato en negrita"
      (forbiddenFindings i (stripList (fullText para))) = 0 :=
    countTipo_forbidden_ne _ _ _ (by decide)
  have zb3 : countTipo "Formato en negrita" (fontSizeFindings i para) = 0 :=
    countTipo_fontSize_ne _ _ _ (by decide) (by decide)
  constructor
  · rw [countTipo_append, countTipo_append, ze1, ze3]
    simp [countTipo]
  · rw [countTipo_append, countTipo_append, zb1, zb3]
    simp [countTipo]

/-- C7: a paragraph whose trimmed text starts with "ENTREVISTADOR:" or
"ENTREVISTADORA:" followed by further text, none of whose runs is bold,
receives both the "Encabezado sin negrita" and the "Formato en negrita"
findings (exactly one of each). -/
theorem c7_interviewer_not_bold (i cnt : Nat) (h : Hist) (para : Paragraph)
    (lbl resto : List Char)
    (hlbl : lbl = "ENTREVISTADOR:".toList ∨ lbl = "ENTREVISTADORA:".toList)
    (htexto : stripList (fullText para) = lbl ++ resto)
    (hresto : resto ≠ [])
    (hbold : ∀ r ∈ para, boldTruthy r.bold = false) :
    countTipo "Encabezado sin negrita" (procesarParrafo i para cnt h).1 = 1 ∧
    countTipo "Formato en negrita" (procesarParrafo i para cnt h).1 = 1 := by
  rcases hlbl with h1 | h1 <;> subst h1
  · exact interviewer_core i cnt h para "ENTREVISTADOR".toList resto (Or.inl rfl)
      htexto hresto hbold
  · exact interviewer_core i cnt h para "ENTREVISTADORA".toList resto (Or.inr rfl)
      htexto hresto hbold

/-- Witness for C7 at the concrete paragraph "ENTREVISTADOR: Hola" with
a run whose bold flag is `False`. -/
theorem c7_witness :
    countTipo "Encabezado sin negrita"
      (procesarParrafo 0 [⟨"ENTREVISTADOR: Hola".toList, some false, none, none⟩]
        0 []).1 = 1 ∧
    countTipo "Formato en negrita"
      (procesarParrafo 0 [⟨"ENTREVISTADOR: Hola".toList, some false, none, none⟩]
        0 []).1 = 1 :=
  c7_interviewer_not_bold 0 0 [] [⟨"ENTREVISTADOR: Hola".toList, some false, none, none⟩]
    "ENTREVISTADOR:".toList " Hola".toList (Or.inl rfl) (by decide) (by decide)
    (by decide)

/-- C9: a bold flag of `None` is treated exactly as not bold in both
interviewer bold checks: `boldTruthy none` is `false`, and a paragraph
with a valid interviewer label followed by text, all of whose runs have
bold `None`, receives both the "Encabezado sin negrita" and the
"Formato en negrita" findings. -/
theorem c9_bold_none_not_bold (i cnt : Nat) (h : Hist) (para : Paragraph)
    (lbl resto : List Char)
    (hlbl : lbl = "ENTREVISTADOR:".toList ∨ lbl = "ENTREVISTADORA:".toList)
    (htexto : stripList (fullText para) = lbl ++ resto)
    (hresto : resto ≠ [])
    (hbold : ∀ r ∈ para, r.bold = none) :
    boldTruthy none = false ∧
    countTipo "Encabezado sin negrita" (procesarParrafo i para cnt h).1 = 1 ∧
    countTipo "Formato en negrita" (procesarParrafo i para cnt h).1 = 1 := by
  have hb : ∀ r ∈ para, boldTruthy r.bold = false := by
    intro r hr
    rw [hbold r hr]
    rfl
  refine ⟨rfl, ?_⟩
  rcases hlbl with h1 | h1 <;> subst h1
  · exact interviewer_core i cnt h para "ENTREVISTADOR".toList resto (Or.inl rfl)
      htexto hresto hb
  · exact interviewer_core i cnt h para "ENTREVISTADORA".toList resto (Or.inr rfl)
      htexto hresto hb

/-- Witness for C9 at the concrete paragraph "ENTREVISTADORA: Buenas"
whose single run has bold `None`. -/
theorem c9_witness :
    boldTruthy none = false ∧
    countTipo "Encabezado sin negrita"
      (procesarParrafo 0 [⟨"ENTREVISTADORA: Buenas".toList, none, none, none⟩]
        0 []).1 = 1 ∧
    countTipo "Formato en negrita"
      (procesarParrafo 0 [⟨"ENTREVISTADORA: Buenas".toList, none, none, none⟩]
        0 []).1 = 1 :=
  c9_bold_none_not_bold 0 0 [] [⟨"ENTREVISTADORA: Buenas".toList, none, none, none⟩]
    "ENTREVISTADORA:".toList " Buenas".toList (Or.inr rfl) (by decide) (by decide)
    (by decide)

/-- C8: a run whose text contains no disallowed character is left
completely untouched by cleaning: same run, same counter, same
histogram. -/
theorem c8_clean_noop (r : Run) (cnt : Nat) (h : Hist)
    (hno : r.text.filter (fun c => !permitido c) = []) :
    limpiarRun r cnt h = (r, cnt, h) :=
  limpiarRun_noop r cnt h hno

/-- Witness for C8 at the concrete clean run text "Hola". -/
theorem c8_witness :
    limpiarRun ⟨"Hola".toList, none, none, none⟩ 5 [('#', 2)] =
      (⟨"Hola".toList, none, none, none⟩, 5, [('#', 2)]) :=
  c8_clean_noop ⟨"Hola".toList, none, none, none⟩ 5 [('#', 2)] (by decide)

end Validador
